import Mathlib

/-!
Shallow embedding of the e-commerce dataset generator (`data_generator.py`)
and proofs of the specified properties of its inventory ledger, session
synthesizer, transaction builder, stream writer and orchestrator loop.

Python integers are modelled as `Int` (stock, quantities) or `Nat`
(counters); Python floats carrying monetary values are modelled as `ℚ`
with an explicit round-to-2-decimals function; the pseudo-random draws
consumed by the generator are passed in explicitly as parameters
(a draw stream determined by the seed for `random`/`numpy`/`Faker`,
a separate entropy stream for `uuid.uuid4`, and the wall clock for
`datetime.now()`), so every function is a pure function of its inputs.
-/

namespace DataGen

/-! ### Configuration constants (lines 13-25) -/

def NUM_USERS : Nat := 10000
def NUM_PRODUCTS : Nat := 5000
def NUM_CATEGORIES : Nat := 25
def NUM_TRANSACTIONS : Nat := 100000
def NUM_SESSIONS : Nat := 300000
def TIMESPAN_DAYS : Nat := 90
def MAX_ITERATIONS : Nat := (NUM_SESSIONS + NUM_TRANSACTIONS) * 3
def CHUNK_SIZE : Nat := 30000

/-- `random.randint(lo, hi)` : uniform integer in `[lo, hi]`; the draw is
supplied as a natural number and reduced into the range, so every outcome
of the library generator is representable. -/
def randint (lo hi : Int) (draw : Nat) : Int :=
  lo + ((draw : Int) % (hi - lo + 1))

/-! ### Inventory ledger (`InventoryManager`, lines 42-58)

The Python dict `self.products : product_id -> product` is modelled by an
association list from product id to the product's `current_stock` (the only
product field the ledger mutates). -/

abbrev Inventory := List (String × Int)

/-- Membership/lookup in the ledger map (`product_id in self.products` /
`self.products[product_id]["current_stock"]`). -/
def lookupStock : Inventory → String → Option Int
  | [], _ => none
  | e :: rest, pid => if e.1 = pid then some e.2 else lookupStock rest pid

/-- `self.products[product_id]["current_stock"] = v` (in-place update of an
existing key). -/
def setStock (inv : Inventory) (pid : String) (v : Int) : Inventory :=
  inv.map fun e => if e.1 = pid then (e.1, v) else e

/-- `InventoryManager.update_stock` (lines 47-54): if the product id is
unknown, return `false`; if current stock is at least `quantity`, subtract
`quantity` and return `true`; otherwise leave the ledger unchanged and
return `false`.  Note the code does not require `quantity > 0`. -/
def update_stock (inv : Inventory) (pid : String) (quantity : Int) :
    Inventory × Bool :=
  match lookupStock inv pid with
  | none => (inv, false)
  | some stock =>
    if quantity ≤ stock then (setStock inv pid (stock - quantity), true)
    else (inv, false)

/-- A sequence of `update_stock` calls applied in order (the only mutation
path used by both transaction modes). -/
def run_updates (inv : Inventory) : List (String × Int) → Inventory
  | [] => inv
  | c :: rest => run_updates (update_stock inv c.1 c.2).1 rest

/-- Zero-padded decimal rendering used by the id format strings
(`f"prod_{prod_id:05d}"` etc.). -/
def padNum (width n : Nat) : String :=
  let s := toString n
  String.mk (List.replicate (width - s.length) '0') ++ s

/-- The product catalog's ledger contents (lines 158-188, as seen by
`InventoryManager.__init__`): product ids `prod_00000 ..` with initial
stock `random.randint(10, 1000)` drawn from the seeded stream. -/
def catalogInventory (stockDraw : Nat → Nat) : Inventory :=
  (List.range NUM_PRODUCTS).map fun i =>
    ("prod_" ++ padNum 5 i, randint 10 1000 (stockDraw i))

/-! ### Monetary arithmetic (Python `round(x, 2)` on `ℚ`) -/

/-- Round to 2 decimal places. -/
def round2 (x : ℚ) : ℚ := (round (x * 100) : ℤ) / 100

/-- One entry of a session's tentative cart: `{"quantity": .., "price": ..}`
(line 282). -/
structure CartEntry where
  quantity : Int
  price : ℚ
  deriving DecidableEq, Repr

/-- A cart line as iterated by the mode-1 loop (`cart_contents.items()`). -/
structure CartLine where
  product_id : String
  quantity : Int
  price : ℚ
  deriving DecidableEq, Repr

/-- A transaction line item (lines 338-343 / 381-386). -/
structure LineItem where
  product_id : String
  quantity : Int
  unit_price : ℚ
  subtotal : ℚ
  deriving DecidableEq, Repr

/-- Build a line item: `subtotal = round(quantity * price, 2)`. -/
def mkLineItem (pid : String) (qty : Int) (price : ℚ) : LineItem :=
  ⟨pid, qty, price, round2 ((qty : ℚ) * price)⟩

/-- The monetary fields of a transaction document (both modes share this
arithmetic, lines 348-354 and 388-394). -/
structure Txn where
  items : List LineItem
  subtotal : ℚ
  discount : ℚ
  total : ℚ
  deriving DecidableEq, Repr

/-- `random.choice([0.05, 0.1, 0.15, 0.2])`. -/
def discount_rates : List ℚ := [5/100, 10/100, 15/100, 20/100]

/-- Assemble the monetary fields of a transaction from its line items:
`subtotal = sum(item["subtotal"])`; with probability 0.2
(`discountCoin < 0.2`) a discount of `round(subtotal * rate, 2)` for a
rate chosen from `discount_rates`; `total = round(subtotal - discount, 2)`. -/
def mkTxnAmounts (items : List LineItem) (discountCoin : ℚ) (rateDraw : Nat) :
    Txn :=
  let subtotal := (items.map fun it => it.subtotal).sum
  let discount :=
    if discountCoin < 2/10 then
      round2 (subtotal * discount_rates.getD (rateDraw % discount_rates.length) 0)
    else 0
  ⟨items, subtotal, discount, round2 (subtotal - discount)⟩

/-! ### TransactionBuilder mode 1: session-derived (lines 330-369) -/

/-- The mode-1 line loop (lines 331-346): lines with `quantity > 0` are
attempted in turn via `update_stock`; a failure aborts the loop (`break`)
with `valid = False`, keeping the decrements already made. Returns the
ledger after the attempted decrements, the line items collected, and the
`valid` flag. -/
def process_cart (inv : Inventory) : List CartLine → Inventory × List LineItem × Bool
  | [] => (inv, [], true)
  | l :: rest =>
    if 0 < l.quantity then
      let r := update_stock inv l.product_id l.quantity
      if r.2 then
        let rec_result := process_cart r.1 rest
        (rec_result.1, mkLineItem l.product_id l.quantity l.price :: rec_result.2.1,
          rec_result.2.2)
      else (r.1, [], false)
    else process_cart inv rest

/-- Mode-1 transaction attempt for a converted session (lines 330-369):
the transaction document is produced only `if valid and transaction_items`;
otherwise nothing is written. The returned ledger reflects all decrements
performed, rolled back in no case. -/
def mode1_txn (inv : Inventory) (cart : List CartLine) (discountCoin : ℚ)
    (rateDraw : Nat) : Inventory × Option Txn :=
  if (process_cart inv cart).2.2 ∧ (process_cart inv cart).2.1 ≠ [] then
    ((process_cart inv cart).1,
      some (mkTxnAmounts (process_cart inv cart).2.1 discountCoin rateDraw))
  else ((process_cart inv cart).1, none)

/-- The ledger state after attempting the cart lines of a prefix in which
every positive-quantity line succeeds (lines with `quantity ≤ 0` are
skipped by the loop). -/
def applyCart (inv : Inventory) : List CartLine → Inventory
  | [] => inv
  | l :: rest =>
    if 0 < l.quantity then applyCart (update_stock inv l.product_id l.quantity).1 rest
    else applyCart inv rest

/-- Every positive-quantity line of the list succeeds against the running
ledger. -/
def allSucceed : Inventory → List CartLine → Bool
  | _, [] => true
  | inv, l :: rest =>
    if 0 < l.quantity then
      (update_stock inv l.product_id l.quantity).2 &&
      allSucceed (update_stock inv l.product_id l.quantity).1 rest
    else allSucceed inv rest

/-! ### TransactionBuilder mode 2: independent basket (lines 372-409) -/

/-- The fields of a sampled product used by the mode-2 loop. -/
structure SampledProduct where
  product_id : String
  base_price : ℚ
  is_active : Bool
  deriving DecidableEq, Repr

/-- The mode-2 item loop (lines 376-386): for each sampled product that is
active, draw `quantity = random.randint(1, 3)` and attempt the decrement;
items whose decrement fails are simply omitted. Each product is paired with
its quantity draw. -/
def mode2_items (inv : Inventory) :
    List (SampledProduct × Nat) → Inventory × List LineItem
  | [] => (inv, [])
  | (p, qdraw) :: rest =>
    if p.is_active then
      let quantity := randint 1 3 qdraw
      let r := update_stock inv p.product_id quantity
      if r.2 then
        let rec_result := mode2_items r.1 rest
        (rec_result.1, mkLineItem p.product_id quantity p.base_price :: rec_result.2)
      else mode2_items r.1 rest
    else mode2_items inv rest

/-- Mode-2 transaction attempt (lines 372-409): a document is emitted only
`if transaction_items` is non-empty. -/
def mode2_txn (inv : Inventory) (ps : List (SampledProduct × Nat))
    (discountCoin : ℚ) (rateDraw : Nat) : Inventory × Option Txn :=
  if (mode2_items inv ps).2 ≠ [] then
    ((mode2_items inv ps).1,
      some (mkTxnAmounts (mode2_items inv ps).2 discountCoin rateDraw))
  else ((mode2_items inv ps).1, none)

/-- The arithmetic contract claimed for every emitted transaction. -/
def txn_arith_ok (t : Txn) : Prop :=
  t.subtotal = (t.items.map fun it => it.subtotal).sum ∧
  (∀ it ∈ t.items, it.subtotal = round2 ((it.quantity : ℚ) * it.unit_price)) ∧
  t.total = round2 (t.subtotal - t.discount) ∧
  (t.discount = 0 ∨ ∃ r ∈ discount_rates, t.discount = round2 (t.subtotal * r))

/-! ### Orchestrator loop (lines 237-255, 411) -/

/-- The body of one iteration of the main `while` loop, abstracted over all
random draws: given the iteration number (fixing the draws consumed in that
iteration) and the current `(session_counter, transaction_counter)` pair,
produce the updated counters. Quantifying over `step` covers every outcome
of the random draws. -/
def generation_loop (step : Nat → Nat × Nat → Nat × Nat) (iteration : Nat)
    (c : Nat × Nat) : Nat × (Nat × Nat) :=
  if h : (c.1 < NUM_SESSIONS ∨ c.2 < NUM_TRANSACTIONS) ∧ iteration < MAX_ITERATIONS
  then generation_loop step (iteration + 1) (step (iteration + 1) c)
  else (iteration, c)
termination_by MAX_ITERATIONS - iteration
decreasing_by omega

/-! ### Id generation (lines 35-39)

`uuid.uuid4()` reads operating-system entropy and is not influenced by
`random.seed` / `np.random.seed` / `Faker.seed`; the hex string of each
successive uuid4 call is therefore an input of the run, separate from the
seeded draw stream. -/

/-- `f"sess_{uuid.uuid4().hex[:10]}"`. -/
def generate_session_id (uuidHex : String) : String :=
  "sess_" ++ (uuidHex.take 10)

/-- `f"txn_{uuid.uuid4().hex[:12]}"`. -/
def generate_transaction_id (uuidHex : String) : String :=
  "txn_" ++ (uuidHex.take 12)

/-- The inputs of one run of the generator script: the seed passed to the
seeded libraries (lines 28-30), the stream of uuid4 hex strings consumed by
the id generators, and the wall clock read by `datetime.now()` /
`end_date="now"` (line 156 etc.), in seconds. -/
structure RunInputs where
  seed : Nat
  uuidHex : Nat → String
  now : Int

/-- The observables of a run relevant to reproducibility: the catalog's
ledger contents (drawn from the seeded stream), the product-creation window
start `now - TIMESPAN_DAYS * 2 days` (line 156), and the id streams. -/
structure RunOutput where
  catalog : Inventory
  product_creation_start : Int
  session_id : Nat → String
  transaction_id : Nat → String

/-- One run of the generator, with the seeded libraries' draw function
abstracted as `prng : seed → index → draw`: the catalog consumes only the
seeded stream, the creation window only the clock, and the ids only the
uuid entropy. -/
def generator_run (prng : Nat → Nat → Nat) (inp : RunInputs) : RunOutput where
  catalog := catalogInventory (prng inp.seed)
  product_creation_start := inp.now - (TIMESPAN_DAYS : Int) * 2 * 86400
  session_id := fun i => generate_session_id (inp.uuidHex i)
  transaction_id := fun i => generate_transaction_id (inp.uuidHex i)

/-! ### SessionSynthesizer (lines 259-321) -/

/-- A page view: only the fields the claims mention. -/
structure PageView where
  page_type : String
  view_duration : Int
  deriving DecidableEq, Repr

/-- The session's tentative cart: a Python dict `product_id -> CartEntry`
in insertion order. -/
abbrev Cart := List (String × CartEntry)

/-- Dict lookup. -/
def cartLookup : Cart → String → Option CartEntry
  | [], _ => none
  | e :: rest, pid => if e.1 = pid then some e.2 else cartLookup rest pid

/-- Dict assignment: update in place if the key exists, else append. -/
def cartSet (cart : Cart) (pid : String) (v : CartEntry) : Cart :=
  if (cartLookup cart pid).isSome then
    cart.map fun e => if e.1 = pid then (e.1, v) else e
  else cart ++ [(pid, v)]

/-- The cart-accumulation step on a `product_detail` view (lines 280-287):
with probability 0.3 (`addCoin < 0.3`) ensure a cart entry (created with
quantity 0), compute `max_possible = min(3, current_stock - quantity)` from
the ledger's observed stock, and if positive add
`random.randint(1, max_possible)` to the entry's quantity. A zero-quantity
entry created here stays in the dict when `max_possible ≤ 0`. -/
def add_to_cart (cart : Cart) (pid : String) (base_price : ℚ)
    (current_stock : Int) (addCoin : ℚ) (qtyDraw : Nat) : Cart :=
  if addCoin < 3/10 then
    let cart1 := if (cartLookup cart pid).isSome then cart
                 else cartSet cart pid ⟨0, base_price⟩
    let entry := (cartLookup cart1 pid).getD ⟨0, base_price⟩
    let max_possible := min 3 (current_stock - entry.quantity)
    if 0 < max_possible then
      cartSet cart1 pid ⟨entry.quantity + randint 1 max_possible qtyDraw, entry.price⟩
    else cart1
  else cart

/-- `any(p["page_type"] in ["checkout", "confirmation"] for p in page_views)`
(line 298). -/
def checkout_reached (pvs : List PageView) : Bool :=
  pvs.any fun p => p.page_type = "checkout" || p.page_type = "confirmation"

/-- The `converted` flag (lines 297-299): eligibility requires a non-empty
cart dict (zero-quantity entries included — a non-empty dict is truthy) and
a checkout/confirmation page view; eligible sessions convert when the draw
is below 0.7. -/
def converted_flag (cart : Cart) (pvs : List PageView) (coin : ℚ) : Bool :=
  if !cart.isEmpty && checkout_reached pvs then decide (coin < 7/10) else false

/-- The session document's persisted `cart_contents` (line 318): only
entries with positive quantity. -/
def persisted_cart (cart : Cart) : Cart :=
  cart.filter fun e => 0 < e.2.quantity

/-- The session document's `conversion_status` (line 319):
`"converted" if converted else "abandoned" if cart_contents else "browsed"`,
where the truthiness test is on the raw cart dict. -/
def conversion_status (converted : Bool) (cart : Cart) : String :=
  if converted then "converted"
  else if !cart.isEmpty then "abandoned"
  else "browsed"

/-! ### Time slots and view durations (lines 269-272) -/

/-- `sorted([0] + draws + [session_duration])` where each draw is
`random.randint(1, session_duration - 1)`. -/
def time_slots (session_duration : Int) (draws : List Int) : List Int :=
  List.insertionSort (· ≤ ·) (0 :: (draws ++ [session_duration]))

/-- The `view_duration` of each page view:
`time_slots[i+1] - time_slots[i]` for `i in range(len(time_slots) - 1)`. -/
def view_durations (session_duration : Int) (draws : List Int) : List Int :=
  let slots := time_slots session_duration draws
  (slots.zip slots.tail).map fun p => p.2 - p.1

/-! ### StreamWriter session chunks (lines 241-251, 323-327, 414-415) -/

/-- Appending one session to the chunk buffer and flushing when the buffer
reaches `CHUNK_SIZE` (lines 323-327): the state is the list of files
written so far together with the current buffer. -/
def append_session {α : Type} (st : List (List α) × List α) (s : α) :
    List (List α) × List α :=
  let buf := st.2 ++ [s]
  if CHUNK_SIZE ≤ buf.length then (st.1 ++ [buf], []) else (st.1, buf)

/-- `flush_sessions` (lines 244-251) as run once at the end (line 415): an
empty buffer writes no file. -/
def final_flush {α : Type} (st : List (List α) × List α) : List (List α) :=
  if st.2.isEmpty then st.1 else st.1 ++ [st.2]

/-- The sequence of `sessions_<N>.json` file contents produced by a run
that generates the given list of session records. -/
def session_files {α : Type} (records : List α) : List (List α) :=
  final_flush (records.foldl append_session ([], []))

/-! ### Basic ledger lemmas -/

lemma lookupStock_setStock_self (inv : Inventory) (pid : String) (v : Int)
    (h : (lookupStock inv pid).isSome) :
    lookupStock (setStock inv pid v) pid = some v := by
  induction inv with
  | nil => simp [lookupStock] at h
  | cons e rest ih =>
    by_cases he : e.1 = pid
    · simp [setStock, lookupStock, he]
    · simp [lookupStock, he] at h
      simpa [setStock, lookupStock, he] using ih h

lemma lookupStock_setStock_other (inv : Inventory) (pid q : String) (v : Int)
    (h : q ≠ pid) :
    lookupStock (setStock inv pid v) q = lookupStock inv q := by
  induction inv with
  | nil => simp [setStock, lookupStock]
  | cons e rest ih =>
    by_cases he : e.1 = pid
    · have heq : ¬ e.1 = q := fun hq => h (hq ▸ he)
      simp only [setStock, List.map_cons, if_pos he, lookupStock,
        if_neg (he ▸ heq), if_neg heq]
      simpa [setStock] using ih
    · simp only [setStock, List.map_cons, if_neg he, lookupStock]
      split
      · rfl
      · simpa [setStock] using ih

lemma setStock_nonneg (inv : Inventory) (pid : String) (v : Int)
    (hv : 0 ≤ v) (h : ∀ e ∈ inv, 0 ≤ e.2) :
    ∀ e ∈ setStock inv pid v, 0 ≤ e.2 := by
  intro e he
  simp only [setStock, List.mem_map] at he
  obtain ⟨a, ha, rfl⟩ := he
  split
  · exact hv
  · exact h a ha

lemma update_stock_nonneg (inv : Inventory) (pid : String) (q : Int)
    (h : ∀ e ∈ inv, 0 ≤ e.2) :
    ∀ e ∈ (update_stock inv pid q).1, 0 ≤ e.2 := by
  unfold update_stock
  cases hl : lookupStock inv pid with
  | none => exact h
  | some stock =>
    by_cases hq : q ≤ stock
    · simp only [hq, if_true]
      exact setStock_nonneg inv pid (stock - q) (by omega) h
    · simpa [hq] using h

lemma run_updates_nonneg (calls : List (String × Int)) :
    ∀ inv : Inventory, (∀ e ∈ inv, 0 ≤ e.2) →
      ∀ e ∈ run_updates inv calls, 0 ≤ e.2 := by
  induction calls with
  | nil => intro inv h; simpa [run_updates] using h
  | cons c rest ih =>
    intro inv h
    exact ih _ (update_stock_nonneg inv c.1 c.2 h)

lemma catalogInventory_nonneg (stockDraw : Nat → Nat) :
    ∀ e ∈ catalogInventory stockDraw, 0 ≤ e.2 := by
  intro e he
  simp only [catalogInventory, List.mem_map] at he
  obtain ⟨i, _, rfl⟩ := he
  have h991 : (0 : Int) < 991 := by norm_num
  have := Int.emod_nonneg (i : Int) (by norm_num : (991 : Int) ≠ 0)
  simp only [randint]
  norm_num
  omega

lemma update_stock_of_fail (inv : Inventory) (pid : String) (q : Int)
    (h : (update_stock inv pid q).2 = false) :
    (update_stock inv pid q).1 = inv := by
  unfold update_stock at *
  cases hl : lookupStock inv pid with
  | none => simp [hl]
  | some stock =>
    rw [hl] at h
    by_cases hq : q ≤ stock
    · simp [hq] at h
    · simp [hl, hq]

/-- If every positive-quantity line of `pre` succeeds and the next
positive-quantity line fails against the resulting ledger, the mode-1 line
loop stops with `valid = false` and leaves the ledger exactly as after the
prefix decrements. -/
lemma process_cart_fail (l : CartLine) (post : List CartLine) :
    ∀ (pre : List CartLine) (inv : Inventory), allSucceed inv pre = true →
      0 < l.quantity →
      (update_stock (applyCart inv pre) l.product_id l.quantity).2 = false →
      (process_cart inv (pre ++ l :: post)).1 = applyCart inv pre ∧
      (process_cart inv (pre ++ l :: post)).2.2 = false := by
  intro pre
  induction pre with
  | nil =>
    intro inv _ hq hfail
    simp only [applyCart] at hfail ⊢
    simp only [List.nil_append, process_cart, if_pos hq]
    rw [if_neg (by simp [hfail])]
    exact ⟨update_stock_of_fail inv l.product_id l.quantity hfail, rfl⟩
  | cons p rest ih =>
    intro inv hpre hq hfail
    by_cases hp : 0 < p.quantity
    · simp only [allSucceed, if_pos hp, Bool.and_eq_true] at hpre
      simp only [applyCart, if_pos hp] at hfail
      have hrec := ih (update_stock inv p.product_id p.quantity).1 hpre.2 hq hfail
      simp only [List.cons_append, process_cart, if_pos hp]
      rw [if_pos hpre.1]
      simpa [applyCart, if_pos hp] using hrec
    · simp only [allSucceed, if_neg hp] at hpre
      simp only [applyCart, if_neg hp] at hfail
      have hrec := ih inv hpre hq hfail
      simp only [List.cons_append, process_cart, if_neg hp]
      simpa [applyCart, if_neg hp] using hrec

lemma generation_loop_iter_le (step : Nat → Nat × Nat → Nat × Nat) :
    ∀ (n iteration : Nat) (c : Nat × Nat), MAX_ITERATIONS - iteration ≤ n →
      iteration ≤ MAX_ITERATIONS →
      (generation_loop step iteration c).1 ≤ MAX_ITERATIONS := by
  intro n
  induction n with
  | zero =>
    intro iteration c hn hle
    rw [generation_loop]
    split
    · next h => omega
    · exact hle
  | succ n ih =>
    intro iteration c hn hle
    rw [generation_loop]
    split
    · next h => exact ih (iteration + 1) _ (by omega) (by omega)
    · exact hle

lemma process_cart_items_subtotal :
    ∀ (cart : List CartLine) (inv : Inventory),
      ∀ it ∈ (process_cart inv cart).2.1,
        it.subtotal = round2 ((it.quantity : ℚ) * it.unit_price) := by
  intro cart
  induction cart with
  | nil => intro inv it hit; simp [process_cart] at hit
  | cons l rest ih =>
    intro inv it hit
    by_cases hl : 0 < l.quantity
    · cases hr : (update_stock inv l.product_id l.quantity).2 with
      | false => simp [process_cart, hl, hr] at hit
      | true =>
        simp only [process_cart, if_pos hl, hr, if_true, List.mem_cons] at hit
        rcases hit with rfl | hit
        · rfl
        · exact ih _ it hit
    · simp only [process_cart, if_neg hl] at hit
      exact ih inv it hit

lemma mode2_items_subtotal :
    ∀ (ps : List (SampledProduct × Nat)) (inv : Inventory),
      ∀ it ∈ (mode2_items inv ps).2,
        it.subtotal = round2 ((it.quantity : ℚ) * it.unit_price) := by
  intro ps
  induction ps with
  | nil => intro inv it hit; simp [mode2_items] at hit
  | cons p rest ih =>
    intro inv it hit
    by_cases hp : p.1.is_active
    · cases hr : (update_stock inv p.1.product_id (randint 1 3 p.2)).2 with
      | false =>
        simp only [mode2_items, hp, if_true, hr, Bool.false_eq_true, if_false] at hit
        exact ih _ it hit
      | true =>
        simp only [mode2_items, hp, if_true, hr, if_true, List.mem_cons] at hit
        rcases hit with rfl | hit
        · rfl
        · exact ih _ it hit
    · simp only [mode2_items, hp, Bool.false_eq_true, if_false] at hit
      exact ih inv it hit

lemma mkTxnAmounts_ok (items : List LineItem) (dCoin : ℚ) (rDraw : Nat)
    (h : ∀ it ∈ items, it.subtotal = round2 ((it.quantity : ℚ) * it.unit_price)) :
    txn_arith_ok (mkTxnAmounts items dCoin rDraw) := by
  refine ⟨rfl, h, rfl, ?_⟩
  by_cases hd : dCoin < 2/10
  · right
    refine ⟨discount_rates.getD (rDraw % discount_rates.length) 0, ?_, ?_⟩
    · have hlen : rDraw % discount_rates.length < discount_rates.length :=
        Nat.mod_lt _ (by norm_num [discount_rates])
      rw [List.getD_eq_getElem _ _ hlen]
      exact List.getElem_mem hlen
    · simp [mkTxnAmounts, hd]
  · left
    simp [mkTxnAmounts, hd]

/-- Evaluation of a concrete mode-1 transaction: product `"p"` at stock 5,
one cart line of quantity 2 at unit price 10, no discount draw. -/
lemma mode1_concrete_eval :
    (mode1_txn [("p", 5)] [⟨"p", 2, 10⟩] (1/2) 0).2 =
      some ⟨[⟨"p", 2, 10, 20⟩], 20, 0, 20⟩ := by
  norm_num [mode1_txn, process_cart, update_stock, lookupStock, setStock,
    mkLineItem, mkTxnAmounts, round2, discount_rates]

lemma sorted_zip_tail : ∀ {l : List Int}, l.Sorted (· ≤ ·) →
    ∀ p ∈ l.zip l.tail, p.1 ≤ p.2 := by
  intro l
  induction l with
  | nil => intro _ p hp; simp at hp
  | cons a rest ih =>
    intro h p hp
    cases rest with
    | nil => simp at hp
    | cons b rest' =>
      rw [List.sorted_cons] at h
      simp only [List.tail_cons, List.zip_cons_cons, List.mem_cons] at hp
      rcases hp with rfl | hp
      · exact h.1 b (List.mem_cons_self b rest')
      · exact ih h.2 p (by simpa using hp)

lemma CHUNK_SIZE_pos : 0 < CHUNK_SIZE := by norm_num [CHUNK_SIZE]

lemma getLastD_mem {β : Type} : ∀ (l : List β), l ≠ [] → ∀ d, l.getLastD d ∈ l
  | [], h => absurd rfl h
  | [a], _ => by intro d; simp [List.getLastD_cons]
  | a :: b :: rest, _ => by
    intro d
    rw [List.getLastD_cons]
    exact List.mem_cons_of_mem a (getLastD_mem (b :: rest) (by simp) a)

/-- Invariant of the chunk-buffer fold: all flushed files are full, the
buffer stays strictly below the chunk size, the buffer length tracks the
record count modulo the chunk size, and no record is lost. -/
lemma foldl_append_session {α : Type} :
    ∀ (rs : List α) (chunks : List (List α)) (buf : List α),
      buf.length < CHUNK_SIZE →
      (∀ c ∈ chunks, c.length = CHUNK_SIZE) →
      (∀ c ∈ (rs.foldl append_session (chunks, buf)).1, c.length = CHUNK_SIZE) ∧
      (rs.foldl append_session (chunks, buf)).2.length < CHUNK_SIZE ∧
      (rs.foldl append_session (chunks, buf)).2.length
        = (buf.length + rs.length) % CHUNK_SIZE ∧
      (rs.foldl append_session (chunks, buf)).1.length * CHUNK_SIZE
          + (rs.foldl append_session (chunks, buf)).2.length
        = chunks.length * CHUNK_SIZE + (buf.length + rs.length) := by
  intro rs
  induction rs with
  | nil =>
    intro chunks buf hb hc
    refine ⟨hc, hb, ?_, by simp⟩
    simp [Nat.mod_eq_of_lt hb]
  | cons r rest ih =>
    intro chunks buf hb hc
    have hstep : append_session (chunks, buf) r =
        if CHUNK_SIZE ≤ (buf ++ [r]).length then (chunks ++ [buf ++ [r]], [])
        else (chunks, buf ++ [r]) := rfl
    by_cases hfull : CHUNK_SIZE ≤ (buf ++ [r]).length
    · have hlen : buf.length + 1 = CHUNK_SIZE := by
        simp only [List.length_append, List.length_cons, List.length_nil] at hfull
        omega
    -- the buffer is flushed as a full file and cleared
      have ih' := ih (chunks ++ [buf ++ [r]]) [] (by simpa using CHUNK_SIZE_pos)
        (by
          intro c hcm
          rcases List.mem_append.mp hcm with hcm | hcm
          · exact hc c hcm
          · simp only [List.mem_singleton] at hcm
            subst hcm
            simp only [List.length_append, List.length_cons, List.length_nil]
            omega)
      rw [List.foldl_cons, hstep, if_pos hfull]
      refine ⟨ih'.1, ih'.2.1, ?_, ?_⟩
      · rw [ih'.2.2.1]
        simp only [List.length_nil, Nat.zero_add]
        have hsum : buf.length + (rest.length + 1) = CHUNK_SIZE + rest.length := by
          omega
        rw [List.length_cons, hsum, Nat.add_mod_left]
      · have h4 := ih'.2.2.2
        simp only [List.length_nil, List.length_append, List.length_cons,
          Nat.add_mul, Nat.one_mul] at h4 ⊢
        omega
    · have hlt : (buf ++ [r]).length < CHUNK_SIZE := by
        simp only [List.length_append, List.length_cons, List.length_nil] at hfull ⊢
        omega
      have ih' := ih chunks (buf ++ [r]) hlt hc
      rw [List.foldl_cons, hstep, if_neg hfull]
      refine ⟨ih'.1, ih'.2.1, ?_, ?_⟩
      · rw [ih'.2.2.1]
        congr 1
        simp only [List.length_append, List.length_cons, List.length_nil]
        omega
      · have h4 := ih'.2.2.2
        simp only [List.length_append, List.length_cons, List.length_nil] at h4 ⊢
        omega

/-! ### Claim theorems about the inventory ledger -/

/-- C1 counterexample: the claim states `update_stock` succeeds iff
`quantity > 0` and stock ≥ quantity, but on a ledger holding product `"p"`
with stock 5 a call with quantity 0 succeeds even though `0 > 0` is false
(the code never checks the sign of the quantity). -/
theorem C1_update_stock_counterexample :
    (update_stock [("p", 5)] "p" 0).2 = true ∧ ¬ ((0 : Int) > 0) := by
  decide

/-- C1 (amended): for a product id present in the ledger with stock `s`,
`update_stock` succeeds iff `quantity ≤ s` (no positivity check); on
success that product's stock becomes `s - quantity` and every other
product's stock is unchanged; on failure the ledger is unchanged. -/
theorem C1_update_stock_amended (inv : Inventory) (pid : String) (qty s : Int)
    (h : lookupStock inv pid = some s) :
    ((update_stock inv pid qty).2 = true ↔ qty ≤ s) ∧
    (qty ≤ s →
      lookupStock (update_stock inv pid qty).1 pid = some (s - qty) ∧
      ∀ q, q ≠ pid →
        lookupStock (update_stock inv pid qty).1 q = lookupStock inv q) ∧
    (¬ qty ≤ s → (update_stock inv pid qty).1 = inv) := by
  unfold update_stock
  rw [h]
  by_cases hq : qty ≤ s
  · refine ⟨by simp [hq], fun _ => ⟨?_, fun q hqp => ?_⟩, fun hc => absurd hq hc⟩
    · simpa [hq] using lookupStock_setStock_self inv pid (s - qty) (by simp [h])
    · simpa [hq] using lookupStock_setStock_other inv pid q (s - qty) hqp
  · simp [hq]

/-- C1 witness: the amended characterization evaluated on a concrete ledger
where the decrement is allowed. -/
theorem C1_update_stock_witness :
    (update_stock [("p", 5)] "p" 3).2 = true :=
  (C1_update_stock_amended [("p", 5)] "p" 3 5 (by decide)).1.mpr (by decide)

/-- C10: for a product id not present in the ledger, `update_stock` returns
`false` and leaves the whole ledger unchanged (no exception path). -/
theorem C10_unknown_product (inv : Inventory) (pid : String) (qty : Int)
    (h : lookupStock inv pid = none) :
    update_stock inv pid qty = (inv, false) := by
  unfold update_stock
  rw [h]

/-- C10 witness: decrementing an absent id on a concrete ledger. -/
theorem C10_unknown_product_witness :
    update_stock [("p", 5)] "q" 2 = ([("p", 5)], false) :=
  C10_unknown_product [("p", 5)] "q" 2 (by decide)

/-- C2: every stock in the generated catalog is a non-negative integer, and
any sequence of `update_stock` calls (the only mutation path used by both
transaction modes of the generator) preserves non-negativity of every
product's stock. -/
theorem C2_stock_nonneg :
    (∀ stockDraw : Nat → Nat, ∀ e ∈ catalogInventory stockDraw, 0 ≤ e.2) ∧
    (∀ inv : Inventory, (∀ e ∈ inv, 0 ≤ e.2) →
      ∀ calls : List (String × Int), ∀ e ∈ run_updates inv calls, 0 ≤ e.2) :=
  ⟨catalogInventory_nonneg, fun inv h calls => run_updates_nonneg calls inv h⟩

/-- C2 witness: after a concrete decrement sequence the remaining stock is
still non-negative. -/
theorem C2_stock_nonneg_witness : (0 : Int) ≤ 3 :=
  C2_stock_nonneg.2 [("p", 5)] (by decide) [("p", 2)] ("p", 3) (by decide)

/-- C3: if a converted session's cart lines are attempted in turn and the
decrement fails on some line (every earlier positive-quantity line having
succeeded), then no transaction record is produced for that session and the
ledger keeps exactly the decrements already performed for the preceding
lines — nothing is rolled back. -/
theorem C3_all_or_nothing (inv : Inventory) (pre : List CartLine)
    (l : CartLine) (post : List CartLine) (discountCoin : ℚ) (rateDraw : Nat)
    (hpre : allSucceed inv pre = true) (hq : 0 < l.quantity)
    (hfail : (update_stock (applyCart inv pre) l.product_id l.quantity).2 = false) :
    mode1_txn inv (pre ++ l :: post) discountCoin rateDraw =
      (applyCart inv pre, none) := by
  have h := process_cart_fail l post pre inv hpre hq hfail
  unfold mode1_txn
  rw [if_neg (by simp [h.2])]
  exact Prod.ext h.1 rfl

/-- C3 witness: the specification's own scenario — three products each at
stock 1, cart quantities `[1, 1, 2]`: the third line fails, no transaction
is emitted, and the first two decrements persist. -/
theorem C3_all_or_nothing_witness :
    mode1_txn [("p1", 1), ("p2", 1), ("p3", 1)]
        [⟨"p1", 1, 10⟩, ⟨"p2", 1, 20⟩, ⟨"p3", 2, 30⟩] (1/2) 0 =
      (applyCart [("p1", 1), ("p2", 1), ("p3", 1)] [⟨"p1", 1, 10⟩, ⟨"p2", 1, 20⟩],
        none) :=
  C3_all_or_nothing [("p1", 1), ("p2", 1), ("p3", 1)]
    [⟨"p1", 1, 10⟩, ⟨"p2", 1, 20⟩] ⟨"p3", 2, 30⟩ [] (1/2) 0
    (by decide) (by decide) (by decide)

/-- C4: for every outcome of the random draws (any `step` function on the
session/transaction counters) the orchestrator loop runs at most
`MAX_ITERATIONS` iterations: starting from iteration 0 the final iteration
counter never exceeds the fail-safe cap. -/
theorem C4_termination (step : Nat → Nat × Nat → Nat × Nat) (c : Nat × Nat) :
    (generation_loop step 0 c).1 ≤ MAX_ITERATIONS :=
  generation_loop_iter_le step MAX_ITERATIONS 0 c (by omega) (by omega)

/-- C5 counterexample: two runs with the same seed (42) and configuration
but different operating-system uuid entropy produce different first
session ids — `uuid.uuid4()` is not controlled by
`random.seed`/`np.random.seed`/`Faker.seed`, so identical seeds do not
reproduce the `session_id`/`transaction_id` fields. -/
theorem C5_determinism_counterexample :
    (RunInputs.mk 42 (fun _ => "aaaaaaaaaaaa") 0).seed =
      (RunInputs.mk 42 (fun _ => "bbbbbbbbbbbb") 0).seed ∧
    (generator_run (fun _ _ => 0) ⟨42, fun _ => "aaaaaaaaaaaa", 0⟩).session_id 0 ≠
      (generator_run (fun _ _ => 0) ⟨42, fun _ => "bbbbbbbbbbbb", 0⟩).session_id 0 := by
  exact ⟨rfl, by decide⟩

/-- C5 (amended): with the seeded draw stream fixed by the seed and the
wall clock fixed, the catalog (and the clock-derived product-creation
window) is identical across runs whatever uuid entropy the run consumes;
the session and transaction ids, by contrast, are functions of the uuid
entropy alone, so they are reproduced only when the uuid draws coincide,
not by fixing the seed. -/
theorem C5_determinism_amended (prng : Nat → Nat → Nat) (seed : Nat)
    (now : Int) (e1 e2 : Nat → String) :
    (generator_run prng ⟨seed, e1, now⟩).catalog =
      (generator_run prng ⟨seed, e2, now⟩).catalog ∧
    (generator_run prng ⟨seed, e1, now⟩).product_creation_start =
      (generator_run prng ⟨seed, e2, now⟩).product_creation_start ∧
    (∀ i, (generator_run prng ⟨seed, e1, now⟩).session_id i =
      generate_session_id (e1 i)) ∧
    (∀ i, (generator_run prng ⟨seed, e1, now⟩).transaction_id i =
      generate_transaction_id (e1 i)) :=
  ⟨rfl, rfl, fun _ => rfl, fun _ => rfl⟩

/-- C6 counterexample: a `product_detail` view of a product whose observed
stock is 0 creates a zero-quantity cart entry (lines 281-287); the raw cart
dict is then non-empty while the persisted `cart_contents` is empty, and
with a checkout page view and a favorable draw the session's status is
`"converted"` even though its persisted cart is empty — contradicting the
claim that conversion requires non-empty persisted cart contents. -/
theorem C6_status_counterexample :
    conversion_status
        (converted_flag (add_to_cart [] "prod_00000" 10 0 (1/10) 0)
          [⟨"checkout", 5⟩] (1/2))
        (add_to_cart [] "prod_00000" 10 0 (1/10) 0) = "converted" ∧
    persisted_cart (add_to_cart [] "prod_00000" 10 0 (1/10) 0) = [] := by
  norm_num [add_to_cart, cartLookup, cartSet, converted_flag, checkout_reached,
    conversion_status, persisted_cart]

/-- C6 (amended): with "cart" read as the raw in-session cart dict (which
may contain zero-quantity entries), the status is `"converted"` exactly
when the dict is non-empty, a checkout/confirmation page view exists, and
the conversion draw succeeds; `"abandoned"` exactly when the dict is
non-empty and it did not convert; `"browsed"` exactly when the dict is
empty. -/
theorem C6_status_amended (cart : Cart) (pvs : List PageView) (coin : ℚ) :
    (conversion_status (converted_flag cart pvs coin) cart = "converted" ↔
      cart ≠ [] ∧ checkout_reached pvs = true ∧ coin < 7/10) ∧
    (conversion_status (converted_flag cart pvs coin) cart = "abandoned" ↔
      cart ≠ [] ∧ ¬(checkout_reached pvs = true ∧ coin < 7/10)) ∧
    (conversion_status (converted_flag cart pvs coin) cart = "browsed" ↔
      cart = []) := by
  unfold conversion_status converted_flag
  by_cases hc : cart = []
  · subst hc
    simp
  · have hne : cart.isEmpty = false := by
      cases cart with
      | nil => exact absurd rfl hc
      | cons a l => rfl
    by_cases hr : checkout_reached pvs = true
    · by_cases hcoin : coin < 7/10
      · simp [hne, hr, hcoin, hc]
      · simp [hne, hr, hcoin, hc]
    · simp [hne, hc, Bool.eq_false_iff.mpr hr]

/-- C8: every transaction emitted by either mode satisfies the arithmetic
contract: its subtotal is the sum of its line items' subtotals, each line
item's subtotal is its quantity times its unit price rounded to 2 decimals,
its total is subtotal minus discount rounded to 2 decimals, and its
discount is 0 or subtotal times one of the rates 0.05/0.10/0.15/0.20
rounded to 2 decimals. -/
theorem C8_txn_arithmetic (inv : Inventory) (cart : List CartLine)
    (ps : List (SampledProduct × Nat)) (d1 d2 : ℚ) (r1 r2 : Nat) (t : Txn)
    (h : (mode1_txn inv cart d1 r1).2 = some t ∨
      (mode2_txn inv ps d2 r2).2 = some t) :
    txn_arith_ok t := by
  rcases h with h | h
  · unfold mode1_txn at h
    split at h
    · obtain rfl : _ = t := Option.some_injective _ h
      exact mkTxnAmounts_ok _ _ _ (process_cart_items_subtotal cart inv)
    · simp at h
  · unfold mode2_txn at h
    split at h
    · obtain rfl : _ = t := Option.some_injective _ h
      exact mkTxnAmounts_ok _ _ _ (mode2_items_subtotal ps inv)
    · simp at h

/-- C8 witness: the arithmetic contract holds for a concretely emitted
mode-1 transaction. -/
theorem C8_txn_arithmetic_witness :
    txn_arith_ok ⟨[⟨"p", 2, 10, 20⟩], 20, 0, 20⟩ :=
  C8_txn_arithmetic [("p", 5)] [⟨"p", 2, 10⟩] [] (1/2) 0 0 0
    ⟨[⟨"p", 2, 10, 20⟩], 20, 0, 20⟩ (Or.inl mode1_concrete_eval)

/-- C9 counterexample: with session duration 30 and the admissible interior
draws `[5, 5, 7]` (each in `[1, duration - 1]`, between 3 and 15 of them),
the sorted time slots are `[0, 5, 5, 7, 30]` and the second page view gets
`view_duration = 0` — a zero-length slot interval does produce a page view,
contradicting strict positivity. -/
theorem C9_view_duration_counterexample :
    (∀ d ∈ [(5 : Int), 5, 7], 1 ≤ d ∧ d ≤ 30 - 1) ∧
    (0 : Int) ∈ view_durations 30 [5, 5, 7] := by
  decide

/-- C9 (amended): every `view_duration` is non-negative (the slots are
sorted, so adjacent differences cannot be negative); zero occurs exactly
when two interior draws coincide, and such an interval still yields a page
view. -/
theorem C9_view_duration_amended (session_duration : Int) (draws : List Int) :
    ∀ d ∈ view_durations session_duration draws, 0 ≤ d := by
  intro d hd
  unfold view_durations at hd
  simp only [List.mem_map] at hd
  obtain ⟨p, hp, rfl⟩ := hd
  have hs : (time_slots session_duration draws).Sorted (· ≤ ·) :=
    List.sorted_insertionSort _ _
  have := sorted_zip_tail hs p hp
  omega

/-- C9 witness: the amended bound evaluated at a concrete slot interval. -/
theorem C9_view_duration_witness :
    (5 : Int) ∈ view_durations 30 [5, 5, 7] ∧ (0 : Int) ≤ 5 :=
  ⟨by decide, C9_view_duration_amended 30 [5, 5, 7] 5 (by decide)⟩

/-- C7: for any run producing a given list of session records, every
written `sessions_<N>.json` file except possibly the last holds exactly
`CHUNK_SIZE` records, no written file is empty, and when any record was
produced the last file holds `total mod CHUNK_SIZE` records — or a full
chunk when the total divides evenly. -/
theorem C7_chunk_sizes {α : Type} (records : List α) :
    (∀ c ∈ (session_files records).dropLast, c.length = CHUNK_SIZE) ∧
    (∀ c ∈ session_files records, c ≠ []) ∧
    (records ≠ [] →
      ((session_files records).getLastD []).length =
        if records.length % CHUNK_SIZE = 0 then CHUNK_SIZE
        else records.length % CHUNK_SIZE) := by
  obtain ⟨h1, h2, h3, h4⟩ :=
    foldl_append_session records ([] : List (List α)) ([] : List α)
      CHUNK_SIZE_pos (by simp)
  simp only [List.length_nil, Nat.zero_add, Nat.zero_mul] at h3 h4
  unfold session_files final_flush
  by_cases hbe :
      (records.foldl append_session (([] : List (List α)), ([] : List α))).2.isEmpty
  · rw [if_pos hbe]
    have hst2 :
        (records.foldl append_session (([] : List (List α)), ([] : List α))).2
          = [] := List.isEmpty_iff.mp hbe
    have hmod0 : records.length % CHUNK_SIZE = 0 := by
      rw [← h3, hst2]
      rfl
    refine ⟨fun c hcm => h1 c ((List.dropLast_sublist _).subset hcm),
      fun c hcm => ?_, fun hne => ?_⟩
    · have := h1 c hcm
      intro hcnil
      subst hcnil
      simp only [List.length_nil] at this
      exact absurd this.symm (Nat.ne_of_gt CHUNK_SIZE_pos)
    · rw [if_pos hmod0]
      have hlen0 : records.length ≠ 0 := by
        intro h0
        exact hne (List.length_eq_zero.mp h0)
      have hchunks :
          (records.foldl append_session (([] : List (List α)), ([] : List α))).1
            ≠ [] := by
        intro hnil
        rw [hst2, hnil] at h4
        simp at h4
        exact hlen0 h4.symm
      exact h1 _ (getLastD_mem _ hchunks [])
  · rw [if_neg hbe]
    have hst2 :
        (records.foldl append_session (([] : List (List α)), ([] : List α))).2
          ≠ [] := by
      intro hnil
      rw [hnil] at hbe
      exact hbe rfl
    refine ⟨fun c hcm => ?_, fun c hcm => ?_, fun _ => ?_⟩
    · rw [List.dropLast_concat] at hcm
      exact h1 c hcm
    · rcases List.mem_append.mp hcm with hcm | hcm
      · have := h1 c hcm
        intro hcnil
        subst hcnil
        simp only [List.length_nil] at this
        exact absurd this.symm (Nat.ne_of_gt CHUNK_SIZE_pos)
      · simp only [List.mem_singleton] at hcm
        subst hcm
        exact hst2
    · rw [List.getLastD_concat]
      have hmodne : records.length % CHUNK_SIZE ≠ 0 := by
        rw [← h3]
        intro h0
        exact hst2 (List.length_eq_zero.mp h0)
      rw [if_neg hmodne]
      exact h3

/-- C7 witness: a single record yields one file of one record
(`1 mod CHUNK_SIZE`). -/
theorem C7_chunk_sizes_witness :
    ((session_files [(0 : Nat)]).getLastD []).length =
      if ([(0 : Nat)] : List Nat).length % CHUNK_SIZE = 0 then CHUNK_SIZE
      else ([(0 : Nat)] : List Nat).length % CHUNK_SIZE :=
  (C7_chunk_sizes [(0 : Nat)]).2.2 (by decide)

end DataGen
